import Mathlib

/-!
Verification of the tomodraw canvas drawing engine (`src/tomodraw/app.py`).

The Python source keeps the canvas as `Canvas.grid : list[list[str]]`
(24 rows of 80 one-character strings) and drives it from Textual mouse
events.  We embed:

* the grid and the rasterization methods (`draw_cell`, `erase_cell`,
  `draw_horizontal_line`, `draw_vertical_line`, `draw_rectangle`,
  `draw_line`, `draw_text`, `grid_as_text`) as Lean functions on
  `Grid := List (List Char)`;
* Python's list-index semantics (negative indices wrap from the end,
  out-of-range indices raise `IndexError`) as `pyIdx`/`pySet`, used by the
  faithful `draw_cell`, since the bounds behaviour of cell writes is part
  of what is claimed;
* the event handlers (`on_mouse_down`, `on_mouse_move`, `on_mouse_up`,
  `on_leave`) together with the ambient application state
  (`last_canvas_grid`, `tool_start_x/y`, `draw`, the live tool and brush)
  as a step machine over `AppState`.  Because the press handler stores
  `self.grid` into `app.last_canvas_grid` by *reference*, the machine
  models Python object identity with a small heap of grid objects: the
  canvas's `grid` attribute and the app's `last_canvas_grid` attribute
  are indices into that heap, in-place cell writes update the heap cell
  both names may share, and `self.grid = new_grid` (in
  `draw_rectangle`/`draw_line`) allocates a fresh object and rebinds only
  the canvas's index.
-/

namespace Tomodraw

/-- The five tools of the `Tool` enum in the source. -/
inductive Tool where
  | RECTANGLE
  | TEXT
  | LINE
  | PENCIL
  | ERASER
deriving DecidableEq, Repr

/-- A canvas grid: rows of single-character cells (`list[list[str]]`,
each cell a one-character string, modelled as `Char`). -/
abbrev Grid := List (List Char)

/-- Grid well-formedness: exactly 24 rows, each of exactly 80 cells
(the fixed `width: 80; height: 24` canvas of the source). -/
def dims (g : Grid) : Prop := g.length = 24 ∧ ∀ row ∈ g, row.length = 80

instance : DecidablePred dims := fun g => by
  unfold dims; infer_instance

/-- The initial all-blank grid: `[[" "] * 80 for _ in range(24)]`. -/
def initGrid : Grid := List.replicate 24 (List.replicate 80 ' ')

/-- Read the cell at column `x`, row `y` (in-bounds access `grid[y][x]`;
the defaults are never reached on a well-formed grid at in-range
coordinates). -/
def cellAt (g : Grid) (x y : Nat) : Char := (g.getD y []).getD x ' '

/-- In-bounds cell write `grid[y][x] = c` for non-negative in-range
coordinates (the form in which every rasterizer of the source writes). -/
def setCellIB (g : Grid) (x y : Nat) (c : Char) : Grid :=
  g.set y ((g.getD y []).set x c)

/-- Python list-index resolution for a list of length `n`: index `i` maps
to offset `i` when `0 ≤ i < n`, wraps to `n + i` when `-n ≤ i < 0`, and
raises `IndexError` (here `none`) otherwise. -/
def pyIdx (n : Nat) (i : Int) : Option Nat :=
  if 0 ≤ i ∧ i < (n : Int) then some i.toNat
  else if -(n : Int) ≤ i ∧ i < 0 then some ((n : Int) + i).toNat
  else none

/-- Python list read `l[i]`. -/
def pyGet {α : Type} (l : List α) (i : Int) : Option α :=
  (pyIdx l.length i).bind fun j => l[j]?

/-- Python list assignment `l[i] = a`. -/
def pySet {α : Type} (l : List α) (i : Int) (a : α) : Option (List α) :=
  (pyIdx l.length i).map fun j => l.set j a

/-- `Canvas.draw_cell`: `self.grid[y][x] = char`, with Python's indexing
semantics on both subscripts (`none` models the raised `IndexError`). -/
def draw_cell (g : Grid) (x y : Int) (c : Char) : Option Grid :=
  (pyIdx g.length y).bind fun j =>
    (pySet (g.getD j []) x c).map fun row => g.set j row

/-- `Canvas.erase_cell`: `self.draw_cell(x, y, " ")`. -/
def erase_cell (g : Grid) (x y : Int) : Option Grid :=
  draw_cell g x y ' '

/-- Cell read `self.grid[y][x]` with Python indexing semantics. -/
def get_cell (g : Grid) (x y : Int) : Option Char :=
  (pyGet g y).bind fun row => pyGet row x

/-- The loop `for x in range(x0, x0 + n): grid[y][x] = "─"`. -/
def hlineAux (g : Grid) (y : Nat) : Nat → Nat → Grid
  | _, 0 => g
  | x0, n + 1 => hlineAux (setCellIB g x0 y '─') y (x0 + 1) n

/-- `Canvas.draw_horizontal_line`: writes `"─"` at row `y`, columns
`start_x` to `end_x` inclusive (the source asserts `start_x < end_x`). -/
def draw_horizontal_line (g : Grid) (y start_x end_x : Nat) : Grid :=
  hlineAux g y start_x (end_x + 1 - start_x)

/-- The loop `for y in range(y0, y0 + n): grid[y][x] = "│"`. -/
def vlineAux (g : Grid) (x : Nat) : Nat → Nat → Grid
  | _, 0 => g
  | y0, n + 1 => vlineAux (setCellIB g x y0 '│') x (y0 + 1) n

/-- `Canvas.draw_vertical_line`: writes `"│"` at column `x`, rows
`start_y` to `end_y` inclusive (the source asserts `start_y < end_y`). -/
def draw_vertical_line (g : Grid) (x start_y end_y : Nat) : Grid :=
  vlineAux g x start_y (end_y + 1 - start_y)

/-- The drawing part of `Canvas.draw_rectangle`, phrased over the
already-computed bounds `start_x = min x0 x1`, `end_x = max x0 x1`,
`start_y = min y0 y1`, `end_y = max y0 y1`. -/
def rectBody (base : Grid) (start_x end_x start_y end_y : Nat) : Grid :=
  let g1 :=
    if start_x ≠ end_x then
      draw_horizontal_line (draw_horizontal_line base start_y start_x end_x)
        end_y start_x end_x
    else base
  let g2 :=
    if start_y ≠ end_y then
      draw_vertical_line (draw_vertical_line g1 start_x start_y end_y)
        end_x start_y end_y
    else g1
  if start_x ≠ end_x ∧ start_y ≠ end_y then
    setCellIB (setCellIB (setCellIB (setCellIB g2 start_x start_y '┌')
      start_x end_y '└') end_x start_y '┐') end_x end_y '┘'
  else g2

/-- `Canvas.draw_rectangle` applied to `base`, the deep copy of
`app.last_canvas_grid` the source takes before drawing.  Returns the
`new_grid` that the source then installs as `self.grid`. -/
def draw_rectangle (base : Grid) (x0 y0 x1 y1 : Nat) : Grid :=
  rectBody base (min x0 x1) (max x0 x1) (min y0 y1) (max y0 y1)

/-- The corner table `(("└", "┌"), ("┘", "┐"))[x0 < x1][y0 < y1]` used
when `horizontal_first` holds. -/
def cornerH : Bool → Bool → Char
  | false, false => '└'
  | false, true => '┌'
  | true, false => '┘'
  | true, true => '┐'

/-- The corner table `(("┐", "┘"), ("┌", "└"))[x0 < x1][y0 < y1]` used
when `horizontal_first` fails. -/
def cornerV : Bool → Bool → Char
  | false, false => '┐'
  | false, true => '┘'
  | true, false => '┌'
  | true, true => '└'

/-- `Canvas.draw_line` applied to `base`, the deep copy of
`app.last_canvas_grid` the source takes before drawing. -/
def draw_line (base : Grid) (x0 y0 x1 y1 : Nat) (horizontal_first : Bool) :
    Grid :=
  let start_x := min x0 x1
  let end_x := max x0 x1
  let start_y := min y0 y1
  let end_y := max y0 y1
  let g1 :=
    if start_x ≠ end_x then
      draw_horizontal_line base (if horizontal_first then y0 else y1)
        start_x end_x
    else base
  let g2 :=
    if start_y ≠ end_y then
      draw_vertical_line g1 (if horizontal_first then x1 else x0)
        start_y end_y
    else g1
  if start_x ≠ end_x ∧ start_y ≠ end_y then
    if horizontal_first then
      setCellIB g2 x1 y0 (cornerH (decide (x0 < x1)) (decide (y0 < y1)))
    else
      setCellIB g2 x0 y1 (cornerV (decide (x0 < x1)) (decide (y0 < y1)))
  else g2

/-- `Canvas.draw_text`:
`for x, char in enumerate(text, start=start_x): self.grid[start_y][x] = char`. -/
def draw_text : Grid → List Char → Nat → Nat → Grid
  | g, [], _, _ => g
  | g, c :: cs, start_x, start_y =>
      draw_text (setCellIB g start_x start_y c) cs (start_x + 1) start_y

/-- `Canvas.grid_as_text`: `"\n".join("".join(row) for row in self.grid)`. -/
def grid_as_text (g : Grid) : String :=
  String.intercalate "\n" (g.map fun row => String.mk row)

/-- The spec's cell-by-cell description of rectangle rasterization, for
comparison with `draw_rectangle`: corner glyphs at the four corners
exactly when both spans are non-degenerate, vertical border characters
along columns `sx` and `ex` over rows `[sy, ey]` exactly when `sy ≠ ey`,
horizontal border characters along rows `sy` and `ey` over columns
`[sx, ex]` exactly when `sx ≠ ex`, and the snapshot everywhere else
(later writes of the rasterizer listed first). -/
def rectSpecCell (base : Grid) (x0 y0 x1 y1 i j : Nat) : Char :=
  let sx := min x0 x1
  let ex := max x0 x1
  let sy := min y0 y1
  let ey := max y0 y1
  if sx ≠ ex ∧ sy ≠ ey ∧ (i = sx ∨ i = ex) ∧ (j = sy ∨ j = ey) then
    if i = sx then (if j = sy then '┌' else '└')
    else (if j = sy then '┐' else '┘')
  else if sy ≠ ey ∧ (i = sx ∨ i = ex) ∧ sy ≤ j ∧ j ≤ ey then '│'
  else if sx ≠ ex ∧ (j = sy ∨ j = ey) ∧ sx ≤ i ∧ i ≤ ex then '─'
  else cellAt base i j

/-- The spec's cell-by-cell description of line rasterization, for
comparison with `draw_line`: with `horizontal_first` the horizontal
segment lies on row `y0` and the vertical segment on column `x1` with
the bend at `(x1, y0)`; without it, on row `y1`, column `x0`, bend at
`(x0, y1)`; the bend glyph is keyed by the drag-direction quadrant. -/
def lineSpecCell (base : Grid) (x0 y0 x1 y1 : Nat) (horizontal_first : Bool)
    (i j : Nat) : Char :=
  let sx := min x0 x1
  let ex := max x0 x1
  let sy := min y0 y1
  let ey := max y0 y1
  let hrow := if horizontal_first then y0 else y1
  let vcol := if horizontal_first then x1 else x0
  if x0 ≠ x1 ∧ y0 ≠ y1 ∧ i = vcol ∧ j = hrow then
    if horizontal_first then cornerH (decide (x0 < x1)) (decide (y0 < y1))
    else cornerV (decide (x0 < x1)) (decide (y0 < y1))
  else if y0 ≠ y1 ∧ i = vcol ∧ sy ≤ j ∧ j ≤ ey then '│'
  else if x0 ≠ x1 ∧ j = hrow ∧ sx ≤ i ∧ i ≤ ex then '─'
  else cellAt base i j

/-- The mutable state the handlers touch: the canvas's `grid` attribute
and the app's `last_canvas_grid` are *references* into a heap of grid
objects (Python object identity matters here, because `on_mouse_down`
assigns `self.app.last_canvas_grid = self.grid` without copying), plus
`tool_start_x/y`, the `draw` flag, the live tool selection, the pencil
brush character, and the pending text-input overlay (anchor and its
`max_length`). -/
structure AppState where
  heap : List Grid
  gridRef : Nat
  lastRef : Nat
  tool_start_x : Nat
  tool_start_y : Nat
  draw : Bool
  tool : Tool
  brush : Char
  pending : Option (Nat × Nat × Nat)
deriving DecidableEq, Repr

/-- The grid object `Canvas.grid` currently refers to. -/
def liveGrid (s : AppState) : Grid := s.heap.getD s.gridRef []

/-- The grid object `app.last_canvas_grid` currently refers to (the
"snapshot" taken at press time). -/
def snapGrid (s : AppState) : Grid := s.heap.getD s.lastRef []

/-- In-place mutation of the object `Canvas.grid` refers to (what a
`self.grid[y][x] = c` write does): every other reference to the same
object observes the change. -/
def writeLive (s : AppState) (g : Grid) : AppState :=
  { s with heap := s.heap.set s.gridRef g }

/-- `self.grid = new_grid`: allocate a fresh grid object and rebind only
the canvas's reference (used by `draw_rectangle` and `draw_line`). -/
def installGrid (s : AppState) (g : Grid) : AppState :=
  { s with heap := s.heap ++ [g], gridRef := s.heap.length }

/-- The events the engine consumes: pointer press/move (cell coordinates
plus the `ctrl` modifier flag), release, leave, tool selection, brush
update, and the text overlay committing its value. -/
inductive Event where
  | press (x y : Nat) (ctrl : Bool)
  | move (x y : Nat) (ctrl : Bool)
  | release
  | leave
  | setTool (t : Tool)
  | setBrush (c : Char)
  | commitText (text : List Char)

/-- `Canvas.on_mouse_down`: aliases `last_canvas_grid` to the live grid,
records the anchor, sets `draw`, then applies the active tool once.  The
event's modifier flag is not consulted.  For the Text tool a
`TextInputOverlay` is mounted with `max_length = 80 - event.x`. -/
def on_mouse_down (s : AppState) (x y : Nat) (_ctrl : Bool) : AppState :=
  let s1 := { s with lastRef := s.gridRef, tool_start_x := x,
                     tool_start_y := y, draw := true }
  match s.tool with
  | Tool.PENCIL => writeLive s1 (setCellIB (liveGrid s1) x y s1.brush)
  | Tool.ERASER => writeLive s1 (setCellIB (liveGrid s1) x y ' ')
  | Tool.TEXT => { s1 with pending := some (x, y, 80 - x) }
  | _ => s1

/-- `Canvas.on_mouse_move`: returns unchanged unless `app.draw`;
otherwise dispatches on the *currently selected* tool, and for the Line
tool passes `horizontal_first = event.ctrl` from this move event. -/
def on_mouse_move (s : AppState) (x y : Nat) (ctrl : Bool) : AppState :=
  if s.draw = false then s
  else
    match s.tool with
    | Tool.PENCIL => writeLive s (setCellIB (liveGrid s) x y s.brush)
    | Tool.ERASER => writeLive s (setCellIB (liveGrid s) x y ' ')
    | Tool.RECTANGLE =>
        installGrid s
          (draw_rectangle (snapGrid s) s.tool_start_x s.tool_start_y x y)
    | Tool.LINE =>
        installGrid s
          (draw_line (snapGrid s) s.tool_start_x s.tool_start_y x y ctrl)
    | Tool.TEXT => s

/-- `Canvas.on_mouse_up`: `self.app.draw = False`. -/
def on_mouse_up (s : AppState) : AppState := { s with draw := false }

/-- `Canvas.on_leave`: `self.app.draw = False`. -/
def on_leave (s : AppState) : AppState := { s with draw := false }

/-- `TextInputOverlay.dismiss`: stamps the overlay's value (which the
`Input` widget has kept within `max_length`, hence the `take`) at the
recorded anchor, then removes the overlay. -/
def commit_text (s : AppState) (text : List Char) : AppState :=
  match s.pending with
  | some (sx, sy, maxLen) =>
      { writeLive s (draw_text (liveGrid s) (text.take maxLen) sx sy) with
          pending := none }
  | none => s

/-- One engine step. -/
def step (s : AppState) : Event → AppState
  | Event.press x y c => on_mouse_down s x y c
  | Event.move x y c => on_mouse_move s x y c
  | Event.release => on_mouse_up s
  | Event.leave => on_leave s
  | Event.setTool t => { s with tool := t }
  | Event.setBrush c => { s with brush := c }
  | Event.commitText t => commit_text s t

/-- Run a list of events. -/
def run (s : AppState) (es : List Event) : AppState := es.foldl step s

/-- The initial application state: a blank canvas grid and a blank
`last_canvas_grid` (two distinct objects in the source), `draw = False`,
anchor `(0, 0)`, the Rectangle tool highlighted first in the toolbox,
and the default pencil brush `"x"`. -/
def initState : AppState :=
  { heap := [initGrid, initGrid], gridRef := 0, lastRef := 1,
    tool_start_x := 0, tool_start_y := 0, draw := false,
    tool := Tool.RECTANGLE, brush := 'x', pending := none }

/-- State well-formedness: both references point into the heap and every
heap object is a 24×80 grid. -/
def WF (s : AppState) : Prop :=
  s.gridRef < s.heap.length ∧ s.lastRef < s.heap.length ∧
    ∀ g ∈ s.heap, dims g

instance : DecidablePred WF := fun s => by
  unfold WF; infer_instance

/-! ## Basic lemmas about cell reads and writes -/

theorem getD_set {α : Type} (l : List α) (x : Nat) (a : α) (i : Nat) (d : α) :
    (l.set x a).getD i d = if i = x ∧ x < l.length then a else l.getD i d := by
  rw [List.getD_eq_getElem?_getD, List.getD_eq_getElem?_getD,
    List.getElem?_set]
  by_cases hxi : x = i
  · subst hxi
    by_cases hx : x < l.length
    · simp [hx]
    · have hnone : l[x]? = none := List.getElem?_eq_none_iff.2 (by omega)
      simp [hx, hnone]
  · have hne : ¬(i = x ∧ x < l.length) := fun h => hxi h.1.symm
    simp [hxi, hne]

theorem cellAt_setCellIB (g : Grid) (x y : Nat) (c : Char) (hd : dims g)
    (hx : x < 80) (hy : y < 24) (i j : Nat) :
    cellAt (setCellIB g x y c) i j =
      if i = x ∧ j = y then c else cellAt g i j := by
  obtain ⟨hlen, hrow⟩ := hd
  unfold cellAt setCellIB
  rw [getD_set]
  have hylen : y < g.length := by omega
  have hrowlen : (g.getD y []).length = 80 := by
    rw [List.getD_eq_getElem?_getD, List.getElem?_eq_getElem hylen]
    exact hrow _ (List.getElem_mem hylen)
  by_cases hj : j = y
  · subst hj
    rw [if_pos ⟨rfl, hylen⟩, getD_set, hrowlen]
    by_cases hi : i = x
    · simp [hi, hx]
    · simp [hi]
  · rw [if_neg (by simp [hj]), if_neg (by simp [hj])]

theorem dims_setCellIB (g : Grid) (x y : Nat) (c : Char) (hd : dims g) :
    dims (setCellIB g x y c) := by
  obtain ⟨hlen, hrow⟩ := hd
  by_cases hy : y < g.length
  · constructor
    · simp [setCellIB, hlen]
    · intro row hmem
      rcases List.mem_or_eq_of_mem_set hmem with h | h
      · exact hrow _ h
      · subst h
        rw [List.length_set, List.getD_eq_getElem?_getD,
          List.getElem?_eq_getElem hy]
        exact hrow _ (List.getElem_mem hy)
  · unfold setCellIB
    rw [List.set_eq_of_length_le (by omega)]
    exact ⟨hlen, hrow⟩

theorem dims_initGrid : dims initGrid := by
  refine ⟨by simp [initGrid], ?_⟩
  intro row h
  unfold initGrid at h
  rw [List.eq_of_mem_replicate h]
  simp

/-! ## Characterization of the straight-line loops -/

theorem dims_hlineAux (g : Grid) (y x0 n : Nat) (hd : dims g) :
    dims (hlineAux g y x0 n) := by
  induction n generalizing g x0 with
  | zero => exact hd
  | succ n ih => exact ih _ _ (dims_setCellIB _ _ _ _ hd)

theorem dims_vlineAux (g : Grid) (x y0 n : Nat) (hd : dims g) :
    dims (vlineAux g x y0 n) := by
  induction n generalizing g y0 with
  | zero => exact hd
  | succ n ih => exact ih _ _ (dims_setCellIB _ _ _ _ hd)

theorem cellAt_hlineAux (g : Grid) (y x0 n : Nat) (hd : dims g)
    (hy : y < 24) (hn : x0 + n ≤ 80) (i j : Nat) :
    cellAt (hlineAux g y x0 n) i j =
      if j = y ∧ x0 ≤ i ∧ i < x0 + n then '─' else cellAt g i j := by
  induction n generalizing g x0 with
  | zero =>
      rw [if_neg (by omega)]
      rfl
  | succ n ih =>
      show cellAt (hlineAux (setCellIB g x0 y '─') y (x0 + 1) n) i j = _
      rw [ih _ _ (dims_setCellIB _ _ _ _ hd) (by omega),
        cellAt_setCellIB _ _ _ _ hd (by omega) hy]
      split_ifs <;> first | rfl | omega

theorem cellAt_vlineAux (g : Grid) (x y0 n : Nat) (hd : dims g)
    (hx : x < 80) (hn : y0 + n ≤ 24) (i j : Nat) :
    cellAt (vlineAux g x y0 n) i j =
      if i = x ∧ y0 ≤ j ∧ j < y0 + n then '│' else cellAt g i j := by
  induction n generalizing g y0 with
  | zero =>
      rw [if_neg (by omega)]
      rfl
  | succ n ih =>
      show cellAt (vlineAux (setCellIB g x y0 '│') x (y0 + 1) n) i j = _
      rw [ih _ _ (dims_setCellIB _ _ _ _ hd) (by omega),
        cellAt_setCellIB _ _ _ _ hd hx (by omega)]
      split_ifs <;> first | rfl | omega

theorem dims_draw_horizontal_line (g : Grid) (y sx ex : Nat) (hd : dims g) :
    dims (draw_horizontal_line g y sx ex) :=
  dims_hlineAux _ _ _ _ hd

theorem dims_draw_vertical_line (g : Grid) (x sy ey : Nat) (hd : dims g) :
    dims (draw_vertical_line g x sy ey) :=
  dims_vlineAux _ _ _ _ hd

theorem cellAt_draw_horizontal_line (g : Grid) (y sx ex : Nat) (hd : dims g)
    (hy : y < 24) (hse : sx ≤ ex) (hex : ex < 80) (i j : Nat) :
    cellAt (draw_horizontal_line g y sx ex) i j =
      if j = y ∧ sx ≤ i ∧ i ≤ ex then '─' else cellAt g i j := by
  unfold draw_horizontal_line
  rw [cellAt_hlineAux _ _ _ _ hd hy (by omega)]
  split_ifs <;> first | rfl | omega

theorem cellAt_draw_vertical_line (g : Grid) (x sy ey : Nat) (hd : dims g)
    (hx : x < 80) (hse : sy ≤ ey) (hey : ey < 24) (i j : Nat) :
    cellAt (draw_vertical_line g x sy ey) i j =
      if i = x ∧ sy ≤ j ∧ j ≤ ey then '│' else cellAt g i j := by
  unfold draw_vertical_line
  rw [cellAt_vlineAux _ _ _ _ hd hx (by omega)]
  split_ifs <;> first | rfl | omega

/-! ## Characterization of rectangle and line rasterization -/

theorem dims_rectBody (base : Grid) (sx ex sy ey : Nat) (hd : dims base) :
    dims (rectBody base sx ex sy ey) := by
  simp only [rectBody]
  split_ifs <;>
    first
      | exact hd
      | (repeat
          first
            | exact hd
            | apply dims_setCellIB
            | apply dims_draw_vertical_line
            | apply dims_draw_horizontal_line)

set_option maxHeartbeats 2000000 in
theorem cellAt_rectBody (base : Grid) (sx ex sy ey : Nat) (hd : dims base)
    (hxse : sx ≤ ex) (hex : ex < 80) (hyse : sy ≤ ey) (hey : ey < 24)
    (i j : Nat) :
    cellAt (rectBody base sx ex sy ey) i j =
      (if sx ≠ ex ∧ sy ≠ ey ∧ (i = sx ∨ i = ex) ∧ (j = sy ∨ j = ey) then
        if i = sx then (if j = sy then '┌' else '└')
        else (if j = sy then '┐' else '┘')
      else if sy ≠ ey ∧ (i = sx ∨ i = ex) ∧ sy ≤ j ∧ j ≤ ey then '│'
      else if sx ≠ ex ∧ (j = sy ∨ j = ey) ∧ sx ≤ i ∧ i ≤ ex then '─'
      else cellAt base i j) := by
  simp only [rectBody]
  have hsx : sx < 80 := by omega
  have hsy : sy < 24 := by omega
  by_cases hxx : sx = ex
  · by_cases hyy : sy = ey
    · rw [if_neg (fun h => h.1 hxx), if_neg (fun h => h hyy),
        if_neg (fun h => h hxx)]
      split_ifs <;> first | rfl | omega
    · rw [if_neg (fun h => h.1 hxx), if_pos hyy, if_neg (fun h => h hxx)]
      rw [cellAt_draw_vertical_line _ _ _ _
        (dims_draw_vertical_line _ _ _ _ hd) hex hyse hey,
        cellAt_draw_vertical_line _ _ _ _ hd hsx hyse hey]
      split_ifs <;> first | rfl | omega
  · by_cases hyy : sy = ey
    · rw [if_neg (fun h => h.2 hyy), if_neg (fun h => h hyy), if_pos hxx]
      rw [cellAt_draw_horizontal_line _ _ _ _
        (dims_draw_horizontal_line _ _ _ _ hd) hey hxse hex,
        cellAt_draw_horizontal_line _ _ _ _ hd hsy hxse hex]
      split_ifs <;> first | rfl | omega
    · rw [if_pos ⟨hxx, hyy⟩, if_pos hyy, if_pos hxx]
      have hd1 : dims (draw_horizontal_line base sy sx ex) :=
        dims_draw_horizontal_line _ _ _ _ hd
      have hd2 : dims (draw_horizontal_line
          (draw_horizontal_line base sy sx ex) ey sx ex) :=
        dims_draw_horizontal_line _ _ _ _ hd1
      have hd3 : dims (draw_vertical_line (draw_horizontal_line
          (draw_horizontal_line base sy sx ex) ey sx ex) sx sy ey) :=
        dims_draw_vertical_line _ _ _ _ hd2
      have hd4 : dims (draw_vertical_line (draw_vertical_line
          (draw_horizontal_line (draw_horizontal_line base sy sx ex)
            ey sx ex) sx sy ey) ex sy ey) :=
        dims_draw_vertical_line _ _ _ _ hd3
      have hd5 : dims (setCellIB (draw_vertical_line (draw_vertical_line
          (draw_horizontal_line (draw_horizontal_line base sy sx ex)
            ey sx ex) sx sy ey) ex sy ey) sx sy '┌') :=
        dims_setCellIB _ _ _ _ hd4
      have hd6 := dims_setCellIB _ sx ey '└' hd5
      have hd7 := dims_setCellIB _ ex sy '┐' hd6
      rw [cellAt_setCellIB _ _ _ _ hd7 hex hey,
        cellAt_setCellIB _ _ _ _ hd6 hex hsy,
        cellAt_setCellIB _ _ _ _ hd5 hsx hey,
        cellAt_setCellIB _ _ _ _ hd4 hsx hsy,
        cellAt_draw_vertical_line _ _ _ _ hd3 hex hyse hey,
        cellAt_draw_vertical_line _ _ _ _ hd2 hsx hyse hey,
        cellAt_draw_horizontal_line _ _ _ _ hd1 hey hxse hex,
        cellAt_draw_horizontal_line _ _ _ _ hd hsy hxse hex]
      split_ifs <;> first | rfl | omega

theorem dims_draw_rectangle (base : Grid) (x0 y0 x1 y1 : Nat)
    (hd : dims base) : dims (draw_rectangle base x0 y0 x1 y1) :=
  dims_rectBody _ _ _ _ _ hd

theorem cellAt_draw_rectangle (base : Grid) (x0 y0 x1 y1 : Nat)
    (hd : dims base) (hx0 : x0 < 80) (hx1 : x1 < 80) (hy0 : y0 < 24)
    (hy1 : y1 < 24) (i j : Nat) :
    cellAt (draw_rectangle base x0 y0 x1 y1) i j =
      rectSpecCell base x0 y0 x1 y1 i j := by
  unfold draw_rectangle rectSpecCell
  exact cellAt_rectBody base _ _ _ _ hd (by omega) (by omega) (by omega)
    (by omega) i j

theorem dims_draw_line (base : Grid) (x0 y0 x1 y1 : Nat) (hf : Bool)
    (hd : dims base) : dims (draw_line base x0 y0 x1 y1 hf) := by
  simp only [draw_line]
  split_ifs <;>
    (repeat
      first
        | exact hd
        | apply dims_setCellIB
        | apply dims_draw_vertical_line
        | apply dims_draw_horizontal_line)

set_option maxHeartbeats 2000000 in
theorem cellAt_draw_line (base : Grid) (x0 y0 x1 y1 : Nat) (hf : Bool)
    (hd : dims base) (hx0 : x0 < 80) (hx1 : x1 < 80) (hy0 : y0 < 24)
    (hy1 : y1 < 24) (i j : Nat) :
    cellAt (draw_line base x0 y0 x1 y1 hf) i j =
      lineSpecCell base x0 y0 x1 y1 hf i j := by
  have hminx : min x0 x1 < 80 := by omega
  have hmaxx : max x0 x1 < 80 := by omega
  have hminy : min y0 y1 < 24 := by omega
  have hmaxy : max y0 y1 < 24 := by omega
  have hmmx : min x0 x1 ≤ max x0 x1 := by omega
  have hmmy : min y0 y1 ≤ max y0 y1 := by omega
  cases hf with
  | true =>
      simp only [draw_line, lineSpecCell, if_true]
      by_cases hxx : x0 = x1
      · have hx' : ¬min x0 x1 ≠ max x0 x1 := by omega
        rw [if_neg (fun h => hx' h.1), if_neg hx']
        by_cases hyy : y0 = y1
        · have hy' : ¬min y0 y1 ≠ max y0 y1 := by omega
          rw [if_neg hy']
          split_ifs <;> first | rfl | omega
        · have hy' : min y0 y1 ≠ max y0 y1 := by omega
          rw [if_pos hy',
            cellAt_draw_vertical_line _ _ _ _ hd hx1 hmmy hmaxy]
          split_ifs <;> first | rfl | omega
      · have hx' : min x0 x1 ≠ max x0 x1 := by omega
        by_cases hyy : y0 = y1
        · have hy' : ¬min y0 y1 ≠ max y0 y1 := by omega
          rw [if_neg (fun h => hy' h.2), if_neg hy', if_pos hx',
            cellAt_draw_horizontal_line _ _ _ _ hd hy0 hmmx hmaxx]
          split_ifs <;> first | rfl | omega
        · have hy' : min y0 y1 ≠ max y0 y1 := by omega
          rw [if_pos ⟨hx', hy'⟩, if_pos hy', if_pos hx']
          have hd1 : dims (draw_horizontal_line base y0
              (min x0 x1) (max x0 x1)) :=
            dims_draw_horizontal_line _ _ _ _ hd
          have hd2 : dims (draw_vertical_line (draw_horizontal_line base y0
              (min x0 x1) (max x0 x1)) x1 (min y0 y1) (max y0 y1)) :=
            dims_draw_vertical_line _ _ _ _ hd1
          rw [cellAt_setCellIB _ _ _ _ hd2 hx1 hy0,
            cellAt_draw_vertical_line _ _ _ _ hd1 hx1 hmmy hmaxy,
            cellAt_draw_horizontal_line _ _ _ _ hd hy0 hmmx hmaxx]
          split_ifs <;> first | rfl | omega
  | false =>
      simp only [draw_line, lineSpecCell, Bool.false_eq_true, if_false]
      by_cases hxx : x0 = x1
      · have hx' : ¬min x0 x1 ≠ max x0 x1 := by omega
        rw [if_neg (fun h => hx' h.1), if_neg hx']
        by_cases hyy : y0 = y1
        · have hy' : ¬min y0 y1 ≠ max y0 y1 := by omega
          rw [if_neg hy']
          split_ifs <;> first | rfl | omega
        · have hy' : min y0 y1 ≠ max y0 y1 := by omega
          rw [if_pos hy',
            cellAt_draw_vertical_line _ _ _ _ hd hx0 hmmy hmaxy]
          split_ifs <;> first | rfl | omega
      · have hx' : min x0 x1 ≠ max x0 x1 := by omega
        by_cases hyy : y0 = y1
        · have hy' : ¬min y0 y1 ≠ max y0 y1 := by omega
          rw [if_neg (fun h => hy' h.2), if_neg hy', if_pos hx',
            cellAt_draw_horizontal_line _ _ _ _ hd hy1 hmmx hmaxx]
          split_ifs <;> first | rfl | omega
        · have hy' : min y0 y1 ≠ max y0 y1 := by omega
          rw [if_pos ⟨hx', hy'⟩, if_pos hy', if_pos hx']
          have hd1 : dims (draw_horizontal_line base y1
              (min x0 x1) (max x0 x1)) :=
            dims_draw_horizontal_line _ _ _ _ hd
          have hd2 : dims (draw_vertical_line (draw_horizontal_line base y1
              (min x0 x1) (max x0 x1)) x0 (min y0 y1) (max y0 y1)) :=
            dims_draw_vertical_line _ _ _ _ hd1
          rw [cellAt_setCellIB _ _ _ _ hd2 hx0 hy1,
            cellAt_draw_vertical_line _ _ _ _ hd1 hx0 hmmy hmaxy,
            cellAt_draw_horizontal_line _ _ _ _ hd hy1 hmmx hmaxx]
          split_ifs <;> first | rfl | omega

/-! ## Text stamping and machine-level helpers -/

theorem dims_draw_text (g : Grid) (cs : List Char) (sx sy : Nat)
    (hd : dims g) : dims (draw_text g cs sx sy) := by
  induction cs generalizing g sx with
  | nil => exact hd
  | cons c cs ih => exact ih _ _ (dims_setCellIB _ _ _ _ hd)

theorem cellAt_draw_text (g : Grid) (cs : List Char) (sx sy : Nat)
    (hd : dims g) (hlen : sx + cs.length ≤ 80) (hsy : sy < 24) (i j : Nat) :
    cellAt (draw_text g cs sx sy) i j =
      if j = sy ∧ sx ≤ i ∧ i < sx + cs.length then cs.getD (i - sx) ' '
      else cellAt g i j := by
  induction cs generalizing g sx with
  | nil =>
      rw [if_neg (by simp)]
      rfl
  | cons c cs ih =>
      simp only [List.length_cons] at hlen
      show cellAt (draw_text (setCellIB g sx sy c) cs (sx + 1) sy) i j = _
      rw [ih (setCellIB g sx sy c) (sx + 1) (dims_setCellIB _ _ _ _ hd)
        (by omega),
        cellAt_setCellIB _ _ _ _ hd (by omega) hsy]
      simp only [List.length_cons]
      by_cases hji : j = sy ∧ sx ≤ i ∧ i < sx + (cs.length + 1)
      · rw [if_pos hji]
        by_cases hi : i = sx
        · rw [if_neg (by omega), if_pos ⟨hi, hji.1⟩]
          subst hi
          simp
        · have h1 : j = sy ∧ sx + 1 ≤ i ∧ i < sx + 1 + cs.length := by
            obtain ⟨ha, hb, hc⟩ := hji
            exact ⟨ha, by omega, by omega⟩
          rw [if_pos h1]
          have h2 : i - sx = (i - (sx + 1)) + 1 := by omega
          rw [h2, List.getD_cons_succ]
      · rw [if_neg hji, if_neg (by omega), if_neg (by omega)]

theorem liveGrid_writeLive (s : AppState) (g : Grid)
    (h : s.gridRef < s.heap.length) : liveGrid (writeLive s g) = g := by
  unfold liveGrid writeLive
  rw [getD_set]
  simp [h]

theorem liveGrid_installGrid (s : AppState) (g : Grid) :
    liveGrid (installGrid s g) = g := by
  unfold liveGrid installGrid
  rw [List.getD_eq_getElem?_getD, List.getElem?_concat_length]
  rfl

theorem snapGrid_installGrid (s : AppState) (g : Grid)
    (h : s.lastRef < s.heap.length) :
    snapGrid (installGrid s g) = snapGrid s := by
  unfold snapGrid installGrid
  rw [List.getD_eq_getElem?_getD, List.getD_eq_getElem?_getD,
    List.getElem?_append, if_pos h]

theorem dims_liveGrid (s : AppState) (h : WF s) : dims (liveGrid s) := by
  obtain ⟨h1, _, h3⟩ := h
  unfold liveGrid
  rw [List.getD_eq_getElem?_getD, List.getElem?_eq_getElem h1]
  exact h3 _ (List.getElem_mem h1)

theorem dims_snapGrid (s : AppState) (h : WF s) : dims (snapGrid s) := by
  obtain ⟨_, h2, h3⟩ := h
  unfold snapGrid
  rw [List.getD_eq_getElem?_getD, List.getElem?_eq_getElem h2]
  exact h3 _ (List.getElem_mem h2)

theorem pyIdx_lt {n : Nat} {i : Int} {j : Nat} (h : pyIdx n i = some j) :
    j < n := by
  unfold pyIdx at h
  split_ifs at h with h1 h2
  · obtain ⟨ha, hb⟩ := h1
    injection h with h
    omega
  · obtain ⟨ha, hb⟩ := h2
    injection h with h
    omega

theorem draw_cell_char (g : Grid) (hd : dims g) (x y : Int) (c : Char) :
    draw_cell g x y c =
      (pyIdx 24 y).bind fun j =>
        (pyIdx 80 x).map fun i => setCellIB g i j c := by
  obtain ⟨hlen, hrow⟩ := hd
  unfold draw_cell pySet setCellIB
  rw [hlen]
  cases hj : pyIdx 24 y with
  | none => rfl
  | some j =>
      have hjlt : j < 24 := pyIdx_lt hj
      have hrl : (g.getD j []).length = 80 := by
        rw [List.getD_eq_getElem?_getD, List.getElem?_eq_getElem (by omega)]
        exact hrow _ (List.getElem_mem (by omega))
      simp only [Option.some_bind]
      rw [hrl]
      cases pyIdx 80 x <;> rfl

theorem pyIdx_none {n : Nat} {i : Int} (h : (n : Int) ≤ i ∨ i < -(n : Int)) :
    pyIdx n i = none := by
  unfold pyIdx
  rw [if_neg (by omega), if_neg (by omega)]

theorem pyIdx_pos {n : Nat} {i : Int} (h1 : 0 ≤ i) (h2 : i < (n : Int)) :
    pyIdx n i = some i.toNat := by
  unfold pyIdx
  rw [if_pos ⟨h1, h2⟩]

theorem pyIdx_neg {n : Nat} {i : Int} (h1 : -(n : Int) ≤ i) (h2 : i < 0) :
    pyIdx n i = some (i + n).toNat := by
  unfold pyIdx
  rw [if_neg (by omega), if_pos ⟨h1, h2⟩]
  congr 1
  omega

theorem pyIdx_none_iff (n : Nat) (i : Int) :
    pyIdx n i = none ↔ ((n : Int) ≤ i ∨ i < -(n : Int)) := by
  unfold pyIdx
  split_ifs with h1 h2 <;> simp <;> omega

theorem dims_row (g : Grid) (hd : dims g) (j : Nat) (hj : j < 24) :
    (g.getD j []).length = 80 := by
  have hjg : j < g.length := by rw [hd.1]; exact hj
  rw [List.getD_eq_getElem?_getD, List.getElem?_eq_getElem hjg]
  exact hd.2 _ (List.getElem_mem hjg)

theorem pyGet_some (g : Grid) (hd : dims g) (y : Int) (j : Nat)
    (hj : pyIdx 24 y = some j) : pyGet g y = some (g.getD j []) := by
  have hjg : j < g.length := by rw [hd.1]; exact pyIdx_lt hj
  unfold pyGet
  rw [hd.1, hj]
  simp only [Option.some_bind]
  rw [List.getElem?_eq_getElem hjg]
  congr 1
  rw [List.getD_eq_getElem?_getD, List.getElem?_eq_getElem hjg]
  rfl

theorem get_cell_resolved (g : Grid) (hd : dims g) (x y : Int) (i j : Nat)
    (hj : pyIdx 24 y = some j) (hi : pyIdx 80 x = some i) :
    get_cell g x y = some (cellAt g i j) := by
  have hrl : (g.getD j []).length = 80 := dims_row g hd j (pyIdx_lt hj)
  have hi80 : i < 80 := pyIdx_lt hi
  have hirow : i < (g.getD j []).length := by rw [hrl]; exact hi80
  unfold get_cell
  rw [pyGet_some g hd y j hj]
  simp only [Option.some_bind]
  unfold pyGet
  rw [hrl, hi]
  simp only [Option.some_bind]
  rw [List.getElem?_eq_getElem hirow]
  congr 1
  unfold cellAt
  rw [List.getD_eq_getElem?_getD (g.getD j []) i ' ',
    List.getElem?_eq_getElem hirow]
  rfl

theorem draw_cell_wrap (g : Grid) (hd : dims g) (x y : Int) (c : Char)
    (hx0 : -80 ≤ x) (hx1 : x < 80) (hy0 : -24 ≤ y) (hy1 : y < 24) :
    draw_cell g x y c =
      some (setCellIB g (if 0 ≤ x then x else x + 80).toNat
        (if 0 ≤ y then y else y + 24).toNat c) := by
  rw [draw_cell_char g hd]
  by_cases hy : 0 ≤ y
  · rw [pyIdx_pos hy (by omega), if_pos hy]
    simp only [Option.some_bind]
    by_cases hx : 0 ≤ x
    · rw [pyIdx_pos hx (by omega), if_pos hx]
      rfl
    · rw [pyIdx_neg (by omega) (by omega), if_neg hx]
      rfl
  · rw [pyIdx_neg (by omega) (by omega), if_neg hy]
    simp only [Option.some_bind]
    by_cases hx : 0 ≤ x
    · rw [pyIdx_pos hx (by omega), if_pos hx]
      rfl
    · rw [pyIdx_neg (by omega) (by omega), if_neg hx]
      rfl

theorem get_cell_wrap (g : Grid) (hd : dims g) (x y : Int)
    (hx0 : -80 ≤ x) (hx1 : x < 80) (hy0 : -24 ≤ y) (hy1 : y < 24) :
    get_cell g x y =
      some (cellAt g (if 0 ≤ x then x else x + 80).toNat
        (if 0 ≤ y then y else y + 24).toNat) := by
  by_cases hy : 0 ≤ y <;> by_cases hx : 0 ≤ x
  · rw [if_pos hx, if_pos hy]
    exact get_cell_resolved g hd x y _ _ (pyIdx_pos hy (by omega))
      (pyIdx_pos hx (by omega))
  · rw [if_neg hx, if_pos hy]
    exact get_cell_resolved g hd x y _ _ (pyIdx_pos hy (by omega))
      (by rw [pyIdx_neg (by omega) (by omega)]; congr 1)
  · rw [if_pos hx, if_neg hy]
    exact get_cell_resolved g hd x y _ _
      (by rw [pyIdx_neg (by omega) (by omega)]; congr 1) (pyIdx_pos hx (by omega))
  · rw [if_neg hx, if_neg hy]
    exact get_cell_resolved g hd x y _ _
      (by rw [pyIdx_neg (by omega) (by omega)]; congr 1)
      (by rw [pyIdx_neg (by omega) (by omega)]; congr 1)

theorem pySet_spec (row : List Char) (a : Char) (i : Int) :
    (pySet row i a = none ↔
      ((row.length : Int) ≤ i ∨ i < -(row.length : Int))) ∧
    (0 ≤ i → i < (row.length : Int) →
      pySet row i a = some (row.set i.toNat a)) ∧
    (-(row.length : Int) ≤ i → i < 0 →
      pySet row i a = some (row.set (i + row.length).toNat a)) := by
  have hmap : pySet row i a = none ↔ pyIdx row.length i = none := by
    unfold pySet
    cases pyIdx row.length i <;> simp
  refine ⟨hmap.trans (pyIdx_none_iff _ _), ?_, ?_⟩
  · intro h1 h2
    unfold pySet
    rw [pyIdx_pos h1 h2]
    rfl
  · intro h1 h2
    unfold pySet
    rw [pyIdx_neg h1 h2]
    rfl

/-! ## Claims -/

/-- **C5.** For every anchor `(x0, y0)` and point `(x1, y1)` with
`sx = min x0 x1`, `ex = max x0 x1`, `sy = min y0 y1`, `ey = max y0 y1`,
rectangle rasterization over the press-time snapshot writes horizontal
border characters along rows `sy` and `ey` over columns `[sx, ex]`
exactly when `sx ≠ ex`, vertical border characters along columns `sx`
and `ex` over rows `[sy, ey]` exactly when `sy ≠ ey`, and exactly when
both spans are non-degenerate overwrites the four corner cells with four
distinct corner glyphs; in the degenerate cases it draws a single
straight segment (or nothing when both spans collapse) and zero corner
glyphs, and every other cell equals the snapshot.  Stated as the
cell-by-cell agreement of `draw_rectangle` with the spec's description
`rectSpecCell`, together with the pairwise distinctness of the four
corner glyphs. -/
theorem draw_rectangle_matches_spec (base : Grid) (x0 y0 x1 y1 : Nat)
    (hd : dims base) (hx0 : x0 < 80) (hx1 : x1 < 80) (hy0 : y0 < 24)
    (hy1 : y1 < 24) :
    (∀ i j, cellAt (draw_rectangle base x0 y0 x1 y1) i j =
      rectSpecCell base x0 y0 x1 y1 i j) ∧
    ('┌' ≠ '└' ∧ '┌' ≠ '┐' ∧ '┌' ≠ '┘' ∧ '└' ≠ '┐' ∧ '└' ≠ '┘' ∧
      '┐' ≠ '┘') :=
  ⟨cellAt_draw_rectangle base x0 y0 x1 y1 hd hx0 hx1 hy0 hy1, by decide⟩

/-- Witness for C5: the rectangle dragged from `(2, 2)` to `(6, 5)` on a
blank canvas has its four corners, border segments, and untouched
interior exactly as the spec describes. -/
theorem draw_rectangle_matches_spec_witness :
    dims initGrid ∧
    cellAt (draw_rectangle initGrid 2 2 6 5) 2 2 = '┌' ∧
    cellAt (draw_rectangle initGrid 2 2 6 5) 6 2 = '┐' ∧
    cellAt (draw_rectangle initGrid 2 2 6 5) 2 5 = '└' ∧
    cellAt (draw_rectangle initGrid 2 2 6 5) 6 5 = '┘' ∧
    cellAt (draw_rectangle initGrid 2 2 6 5) 4 2 = '─' ∧
    cellAt (draw_rectangle initGrid 2 2 6 5) 2 3 = '│' ∧
    cellAt (draw_rectangle initGrid 2 2 6 5) 4 3 = ' ' := by
  have h := (draw_rectangle_matches_spec initGrid 2 2 6 5 (by decide)
    (by decide) (by decide) (by decide) (by decide)).1
  refine ⟨by decide, ?_, ?_, ?_, ?_, ?_, ?_, ?_⟩ <;> (rw [h]; decide)

/-- **C6.** For every anchor `(x0, y0)` and endpoint `(x1, y1)`, line
rasterization with `horizontal_first = true` places the horizontal
segment at row `y0`, the vertical segment at column `x1`, and a
direction-dependent corner glyph at `(x1, y0)`, while
`horizontal_first = false` places them at row `y1`, column `x0`, and
corner `(x0, y1)` (the cell-by-cell agreement with `lineSpecCell`); and
whenever both spans are non-degenerate, the two settings produce two
different grids from the same snapshot. -/
theorem draw_line_matches_spec_and_modifier_changes_bend
    (base : Grid) (x0 y0 x1 y1 : Nat) (hd : dims base) (hx0 : x0 < 80)
    (hx1 : x1 < 80) (hy0 : y0 < 24) (hy1 : y1 < 24) :
    (∀ (hf : Bool) (i j : Nat),
      cellAt (draw_line base x0 y0 x1 y1 hf) i j =
        lineSpecCell base x0 y0 x1 y1 hf i j) ∧
    (x0 ≠ x1 → y0 ≠ y1 →
      draw_line base x0 y0 x1 y1 true ≠ draw_line base x0 y0 x1 y1 false) := by
  refine ⟨fun hf i j =>
    cellAt_draw_line base x0 y0 x1 y1 hf hd hx0 hx1 hy0 hy1 i j, ?_⟩
  intro hxx hyy heq
  have h1 := cellAt_draw_line base x0 y0 x1 y1 true hd hx0 hx1 hy0 hy1 x0 y0
  have h2 := cellAt_draw_line base x0 y0 x1 y1 false hd hx0 hx1 hy0 hy1 x0 y0
  rw [heq, h2] at h1
  simp only [lineSpecCell, if_true, Bool.false_eq_true, if_false,
    eq_self_iff_true, true_and, and_true] at h1
  split_ifs at h1 <;> first | omega | exact absurd h1 (by decide)

/-- Witness for C6: dragging a line from `(1, 1)` to `(4, 3)` with the
modifier held versus released yields two different grids. -/
theorem draw_line_modifier_changes_bend_witness :
    dims initGrid ∧ (1 : Nat) ≠ 4 ∧ (1 : Nat) ≠ 3 ∧
    draw_line initGrid 1 1 4 3 true ≠ draw_line initGrid 1 1 4 3 false := by
  have h := (draw_line_matches_spec_and_modifier_changes_bend initGrid
    1 1 4 3 (by decide) (by decide) (by decide) (by decide) (by decide)).2
  exact ⟨by decide, by decide, by decide, h (by decide) (by decide)⟩

/-- **C7.** For every active Pencil gesture, each press and move event
writes the current brush character into exactly the one cell at that
event's coordinate and changes no other cell: no interpolation between
distant consecutive event coordinates is performed. -/
theorem pencil_paints_exactly_event_cell (s : AppState) (x y : Nat)
    (c : Bool) (hWF : WF s) (ht : s.tool = Tool.PENCIL) (hx : x < 80)
    (hy : y < 24) :
    (∀ i j, cellAt (liveGrid (step s (Event.press x y c))) i j =
      if i = x ∧ j = y then s.brush else cellAt (liveGrid s) i j) ∧
    (s.draw = true →
      ∀ i j, cellAt (liveGrid (step s (Event.move x y c))) i j =
        if i = x ∧ j = y then s.brush else cellAt (liveGrid s) i j) := by
  have hgl : s.gridRef < s.heap.length := hWF.1
  have hdl : dims (liveGrid s) := dims_liveGrid s hWF
  constructor
  · intro i j
    show cellAt (liveGrid (on_mouse_down s x y c)) i j = _
    unfold on_mouse_down
    rw [ht]
    show cellAt (liveGrid (writeLive
      { s with lastRef := s.gridRef, tool_start_x := x, tool_start_y := y,
               draw := true }
      (setCellIB (liveGrid s) x y s.brush))) i j = _
    rw [liveGrid_writeLive
      { s with lastRef := s.gridRef, tool_start_x := x, tool_start_y := y,
               draw := true } _ hgl]
    exact cellAt_setCellIB _ _ _ _ hdl hx hy i j
  · intro hdraw i j
    show cellAt (liveGrid (on_mouse_move s x y c)) i j = _
    unfold on_mouse_move
    rw [if_neg (by rw [hdraw]; simp), ht]
    show cellAt (liveGrid (writeLive s
      (setCellIB (liveGrid s) x y s.brush))) i j = _
    rw [liveGrid_writeLive _ _ hgl]
    exact cellAt_setCellIB _ _ _ _ hdl hx hy i j

/-- Witness for C7: with the brush set to `'#'`, press at `(0, 0)` and
move to `(3, 0)`: both event cells hold `'#'` and the skipped cells
`(1, 0)` and `(2, 0)` stay blank. -/
theorem pencil_paints_exactly_event_cell_witness :
    WF (run { initState with tool := Tool.PENCIL, brush := '#' }
      [Event.press 0 0 false]) ∧
    cellAt (liveGrid (step (run { initState with
        tool := Tool.PENCIL, brush := '#' } [Event.press 0 0 false])
      (Event.move 3 0 false))) 0 0 = '#' ∧
    cellAt (liveGrid (step (run { initState with
        tool := Tool.PENCIL, brush := '#' } [Event.press 0 0 false])
      (Event.move 3 0 false))) 3 0 = '#' ∧
    cellAt (liveGrid (step (run { initState with
        tool := Tool.PENCIL, brush := '#' } [Event.press 0 0 false])
      (Event.move 3 0 false))) 1 0 = ' ' ∧
    cellAt (liveGrid (step (run { initState with
        tool := Tool.PENCIL, brush := '#' } [Event.press 0 0 false])
      (Event.move 3 0 false))) 2 0 = ' ' := by
  have h := (pencil_paints_exactly_event_cell
    (run { initState with tool := Tool.PENCIL, brush := '#' }
      [Event.press 0 0 false]) 3 0 false
    (by decide) (by decide) (by decide) (by decide)).2 (by decide)
  refine ⟨by decide, ?_, ?_, ?_, ?_⟩ <;> (rw [h]; decide)

/-- **C8.** A move event while no gesture is active leaves the state
unchanged (a no-op, not an error); release and leave events both clear
the gesture-active flag and perform no grid mutation. -/
theorem inactive_move_noop_and_release_leave_end_gesture
    (s : AppState) (x y : Nat) (c : Bool) :
    (s.draw = false → step s (Event.move x y c) = s) ∧
    step s Event.release = { s with draw := false } ∧
    step s Event.leave = { s with draw := false } ∧
    liveGrid (step s Event.release) = liveGrid s ∧
    liveGrid (step s Event.leave) = liveGrid s := by
  refine ⟨fun h => ?_, rfl, rfl, rfl, rfl⟩
  show on_mouse_move s x y c = s
  unfold on_mouse_move
  rw [if_pos h]

/-- Witness for C8 at the initial state. -/
theorem inactive_move_noop_witness :
    initState.draw = false ∧
    step initState (Event.move 3 4 false) = initState := by
  exact ⟨rfl, (inactive_move_noop_and_release_leave_end_gesture
    initState 3 4 false).1 rfl⟩

/-- **C9.** For every string and anchor `(start_x, start_y)` with
`start_x + length ≤ 80`, committing the string stamps it left-to-right
one character per column on row `start_y` with no wrapping and leaves
every other cell untouched; and a Text-tool press records a pending
insertion whose maximum length is `80 - start_x`. -/
theorem draw_text_stamps_row_and_text_press_caps_length
    (g : Grid) (cs : List Char) (sx sy : Nat) (hd : dims g)
    (hlen : sx + cs.length ≤ 80) (hsy : sy < 24) :
    (∀ i j, cellAt (draw_text g cs sx sy) i j =
      if j = sy ∧ sx ≤ i ∧ i < sx + cs.length then cs.getD (i - sx) ' '
      else cellAt g i j) ∧
    (∀ (s : AppState) (x y : Nat) (c : Bool), s.tool = Tool.TEXT →
      (step s (Event.press x y c)).pending = some (x, y, 80 - x)) := by
  refine ⟨cellAt_draw_text g cs sx sy hd hlen hsy, ?_⟩
  intro s x y c htool
  show (on_mouse_down s x y c).pending = _
  unfold on_mouse_down
  rw [htool]

/-- Witness for C9: committing `"hi"` at `(5, 3)` sets `(5, 3)` to `'h'`
and `(6, 3)` to `'i'` and leaves a neighbouring cell blank; a Text press
at `(5, 3)` caps the pending insertion at `80 - 5` characters. -/
theorem draw_text_stamps_row_witness :
    dims initGrid ∧ (5 : Nat) + 2 ≤ 80 ∧ (3 : Nat) < 24 ∧
    cellAt (draw_text initGrid ['h', 'i'] 5 3) 5 3 = 'h' ∧
    cellAt (draw_text initGrid ['h', 'i'] 5 3) 6 3 = 'i' ∧
    cellAt (draw_text initGrid ['h', 'i'] 5 3) 7 3 = ' ' ∧
    cellAt (draw_text initGrid ['h', 'i'] 5 3) 5 2 = ' ' ∧
    (step { initState with tool := Tool.TEXT }
      (Event.press 5 3 false)).pending = some (5, 3, 75) := by
  have h := draw_text_stamps_row_and_text_press_caps_length initGrid
    ['h', 'i'] 5 3 (by decide) (by decide) (by decide)
  refine ⟨by decide, by decide, by decide, ?_, ?_, ?_, ?_, ?_⟩
  · rw [h.1]; decide
  · rw [h.1]; decide
  · rw [h.1]; decide
  · rw [h.1]; decide
  · exact h.2 { initState with tool := Tool.TEXT } 5 3 false rfl

/-- **C10.** Starting from the initial 24×80 grid, every engine
operation preserves the grid's shape (24 rows of 80 one-character
cells), so the text serialization is always the newline-join of 24
strings of 80 characters each. -/
theorem engine_ops_preserve_grid_shape
    (g : Grid) (hd : dims g) (x y : Nat) (c : Char) (x0 y0 x1 y1 : Nat)
    (hf : Bool) (cs : List Char) (sx sy : Nat) (xi yi : Int) (g' : Grid) :
    dims initGrid ∧
    dims (setCellIB g x y c) ∧
    (draw_cell g xi yi c = some g' → dims g') ∧
    dims (draw_rectangle g x0 y0 x1 y1) ∧
    dims (draw_line g x0 y0 x1 y1 hf) ∧
    dims (draw_text g cs sx sy) ∧
    (g.map fun row => String.mk row).length = 24 ∧
    (∀ srow ∈ g.map fun row => String.mk row, srow.length = 80) ∧
    grid_as_text g =
      String.intercalate "\n" (g.map fun row => String.mk row) := by
  refine ⟨dims_initGrid, dims_setCellIB g x y c hd, ?_,
    dims_draw_rectangle g x0 y0 x1 y1 hd, dims_draw_line g x0 y0 x1 y1 hf hd,
    dims_draw_text g cs sx sy hd, by simp [hd.1], ?_, rfl⟩
  · intro hsome
    rw [draw_cell_char g hd] at hsome
    cases hy' : pyIdx 24 yi with
    | none => rw [hy'] at hsome; exact absurd hsome (by simp)
    | some j =>
        rw [hy'] at hsome
        cases hx' : pyIdx 80 xi with
        | none => rw [hx'] at hsome; exact absurd hsome (by simp)
        | some i =>
            rw [hx'] at hsome
            simp only [Option.some_bind, Option.map_some] at hsome
            injection hsome with hsome
            rw [← hsome]
            exact dims_setCellIB g i j c hd
  · intro srow hmem
    obtain ⟨row, hrow, hsrow⟩ := List.mem_map.1 hmem
    rw [← hsrow]
    show (String.mk row).length = 80
    simpa using hd.2 row hrow

/-- Witness for C10 on the blank grid and sample arguments. -/
theorem engine_ops_preserve_grid_shape_witness :
    dims initGrid ∧
    dims (draw_rectangle initGrid 2 2 6 5) ∧
    dims (draw_text initGrid ['h', 'i'] 5 3) ∧
    (initGrid.map fun row => String.mk row).length = 24 := by
  have h := engine_ops_preserve_grid_shape initGrid (by decide) 1 1 'q'
    2 2 6 5 true ['h', 'i'] 5 3 0 0 initGrid
  exact ⟨h.1, h.2.2.2.1, h.2.2.2.2.2.1, h.2.2.2.2.2.2.1⟩

/-- **C1 (counterexample).** The claim says the snapshot taken at press
time is value-independent of the live grid.  But `on_mouse_down` assigns
`self.app.last_canvas_grid = self.grid` without copying, so the
in-place Pencil cell write of the following move event mutates the
snapshot: right after the press the snapshot holds `' '` at `(1, 0)`,
and after the move it holds `'#'` there. -/
theorem snapshot_mutated_by_pencil_write :
    cellAt (snapGrid (run { initState with
      tool := Tool.PENCIL, brush := '#' } [Event.press 0 0 false])) 1 0
      = ' ' ∧
    cellAt (snapGrid (run { initState with
      tool := Tool.PENCIL, brush := '#' }
      [Event.press 0 0 false, Event.move 1 0 false])) 1 0 = '#' :=
  ⟨by decide, by decide⟩

/-- **C1 (amended).** The press stores the live grid into
`last_canvas_grid` by reference, not by copy: immediately after any
press both names refer to the same grid object.  Installing a shape
preview (a Rectangle or Line move) still leaves the stored snapshot's
contents unchanged, because it deep-copies the snapshot and rebinds only
the live-grid reference; but in-place Pencil/Eraser cell writes mutate
the shared object, so the snapshot is not value-independent of the live
grid. -/
theorem press_aliases_snapshot_and_previews_preserve_it
    (s : AppState) (x y : Nat) (c : Bool) (hWF : WF s) :
    (step s (Event.press x y c)).lastRef =
      (step s (Event.press x y c)).gridRef ∧
    ((s.tool = Tool.RECTANGLE ∨ s.tool = Tool.LINE) →
      snapGrid (step s (Event.move x y c)) = snapGrid s) := by
  constructor
  · show (on_mouse_down s x y c).lastRef = (on_mouse_down s x y c).gridRef
    unfold on_mouse_down
    cases htool : s.tool <;> simp [writeLive]
  · intro h
    show snapGrid (on_mouse_move s x y c) = snapGrid s
    unfold on_mouse_move
    by_cases hdraw : s.draw = false
    · rw [if_pos hdraw]
    · rw [if_neg hdraw]
      rcases h with h | h <;> rw [h] <;>
        exact snapGrid_installGrid s _ hWF.2.1

/-- Witness for the amended C1: at the initial state (Rectangle tool), a
press aliases the two references and a preview move leaves the snapshot
unchanged. -/
theorem press_aliases_snapshot_witness :
    WF initState ∧ WF ({ initState with draw := true } : AppState) ∧
    (step initState (Event.press 2 2 false)).lastRef =
      (step initState (Event.press 2 2 false)).gridRef ∧
    snapGrid (step { initState with draw := true } (Event.move 3 3 false)) =
      snapGrid ({ initState with draw := true } : AppState) := by
  have h1 := press_aliases_snapshot_and_previews_preserve_it initState
    2 2 false (by decide)
  have h2 := press_aliases_snapshot_and_previews_preserve_it
    { initState with draw := true } 3 3 false (by decide)
  exact ⟨by decide, by decide, h1.1, h2.2 (Or.inl rfl)⟩

/-- **C2 (counterexample).** The claim says `horizontal_first` is
captured from the press event's modifier and move events are rasterized
with that press-time value regardless of their own modifier flags.  But
`on_mouse_move` passes `horizontal_first=event.ctrl` from each move
event: two gestures with the identical press (modifier released) that
differ only in the move event's modifier produce different grids. -/
theorem move_event_modifier_changes_line :
    liveGrid (run { initState with tool := Tool.LINE }
      [Event.press 0 0 false, Event.move 2 2 true]) ≠
    liveGrid (run { initState with tool := Tool.LINE }
      [Event.press 0 0 false, Event.move 2 2 false]) := by
  decide

/-- **C2 (amended).** `horizontal_first` is not captured at press time
(the press handler never reads the modifier flag): every Line-tool move
event rasterizes the line with that move event's own modifier value over
the press-time anchor and snapshot. -/
theorem line_move_rasterizes_with_move_modifier (s : AppState)
    (x y : Nat) (c : Bool) (hdraw : s.draw = true)
    (ht : s.tool = Tool.LINE) :
    liveGrid (step s (Event.move x y c)) =
      draw_line (snapGrid s) s.tool_start_x s.tool_start_y x y c := by
  show liveGrid (on_mouse_move s x y c) = _
  unfold on_mouse_move
  rw [if_neg (by rw [hdraw]; simp), ht]
  exact liveGrid_installGrid s _

/-- Witness for the amended C2: after a Line-tool press at `(0, 0)`, a
move to `(2, 2)` with the modifier held rasterizes with
`horizontal_first = true`. -/
theorem line_move_uses_move_modifier_witness :
    (run { initState with tool := Tool.LINE }
      [Event.press 0 0 false]).draw = true ∧
    (run { initState with tool := Tool.LINE }
      [Event.press 0 0 false]).tool = Tool.LINE ∧
    liveGrid (step (run { initState with tool := Tool.LINE }
        [Event.press 0 0 false]) (Event.move 2 2 true)) =
      draw_line (snapGrid (run { initState with tool := Tool.LINE }
        [Event.press 0 0 false])) 0 0 2 2 true := by
  have h := line_move_rasterizes_with_move_modifier
    (run { initState with tool := Tool.LINE } [Event.press 0 0 false])
    2 2 true (by decide) (by decide)
  exact ⟨by decide, by decide, h⟩

/-- **C4 (counterexample).** The claim says the tool active at press
time governs every move of the gesture.  But the move handler re-reads
the ambient tool selection: pressing with the Pencil (painting `'x'`)
and switching to the Eraser mid-gesture makes the next move erase the
cell, while the same gesture without the switch leaves `'x'` there. -/
theorem mid_gesture_tool_switch_changes_behavior :
    cellAt (liveGrid (run { initState with tool := Tool.PENCIL }
      [Event.press 2 2 false, Event.setTool Tool.ERASER,
        Event.move 2 2 false])) 2 2 = ' ' ∧
    cellAt (liveGrid (run { initState with tool := Tool.PENCIL }
      [Event.press 2 2 false, Event.move 2 2 false])) 2 2 = 'x' :=
  ⟨by decide, by decide⟩

/-- **C4 (amended).** Switching tools itself never touches the grid, but
the active tool is not captured into the gesture state: each move event
dispatches on the tool selected at that moment, so a mid-gesture switch
(here to the Eraser) governs the remaining moves of the gesture. -/
theorem tool_switch_governs_subsequent_moves (s : AppState) (t : Tool)
    (x y : Nat) (c : Bool) (hWF : WF s) :
    liveGrid (step s (Event.setTool t)) = liveGrid s ∧
    step s (Event.setTool t) = { s with tool := t } ∧
    (s.draw = true →
      liveGrid (step (step s (Event.setTool Tool.ERASER))
          (Event.move x y c)) =
        setCellIB (liveGrid s) x y ' ') := by
  refine ⟨rfl, rfl, fun h => ?_⟩
  show liveGrid (on_mouse_move { s with tool := Tool.ERASER } x y c) = _
  unfold on_mouse_move
  rw [if_neg (by show ¬s.draw = false; rw [h]; simp)]
  show liveGrid (writeLive { s with tool := Tool.ERASER }
    (setCellIB (liveGrid s) x y ' ')) = _
  rw [liveGrid_writeLive { s with tool := Tool.ERASER } _ hWF.1]

/-- Witness for the amended C4 at the initial state with an active
gesture. -/
theorem tool_switch_governs_moves_witness :
    WF ({ initState with draw := true } : AppState) ∧
    ({ initState with draw := true } : AppState).draw = true ∧
    liveGrid (step (step { initState with draw := true }
        (Event.setTool Tool.ERASER)) (Event.move 1 1 false)) =
      setCellIB (liveGrid ({ initState with draw := true } : AppState))
        1 1 ' ' := by
  have h := tool_switch_governs_subsequent_moves
    { initState with draw := true } Tool.ERASER 1 1 false (by decide)
  exact ⟨by decide, rfl, h.2.2 rfl⟩

/-- **C3 (counterexample).** The claim says every coordinate outside
`[0, 80) × [0, 24)` makes the cell write fail with an out-of-bounds
error rather than silently writing some other cell.  But Python's
negative indexing makes `draw_cell(-1, 0, '#')` succeed, silently
writing cell `(79, 0)`. -/
theorem draw_cell_negative_index_writes_other_cell :
    draw_cell initGrid (-1) 0 '#' = some (setCellIB initGrid 79 0 '#') := by
  decide

/-- **C3 (amended).** Every coordinate-consuming engine operation
accesses the grid through Python subscripts, and those raise an
`IndexError` exactly when the coordinate is at or beyond the extent or
strictly below its negation — for the whole-cell operations, exactly
when `x ≥ 80`, `x < -80`, `y ≥ 24`, or `y < -24`.  Within that band no
operation fails: non-negative coordinates address the stated cell, and a
negative coordinate silently wraps (Python negative indexing) to
`x + 80` / `y + 24` instead of failing.  Proven as: the failure
biconditional and the four-quadrant wrap law for both the cell write
(`draw_cell`) and the cell read (`get_cell`), plus the same law for the
element-level subscript assignment (`pySet`) out of which the shape
rasterization and text-stamping loops are built. -/
theorem draw_cell_out_of_bounds_behavior (g : Grid) (hd : dims g)
    (x y : Int) (c : Char) :
    (draw_cell g x y c = none ↔ (80 ≤ x ∨ x < -80 ∨ 24 ≤ y ∨ y < -24)) ∧
    (get_cell g x y = none ↔ (80 ≤ x ∨ x < -80 ∨ 24 ≤ y ∨ y < -24)) ∧
    (-80 ≤ x → x < 80 → -24 ≤ y → y < 24 →
      draw_cell g x y c =
        some (setCellIB g (if 0 ≤ x then x else x + 80).toNat
          (if 0 ≤ y then y else y + 24).toNat c) ∧
      get_cell g x y =
        some (cellAt g (if 0 ≤ x then x else x + 80).toNat
          (if 0 ≤ y then y else y + 24).toNat)) ∧
    (∀ (row : List Char) (a : Char) (i : Int),
      (pySet row i a = none ↔
        ((row.length : Int) ≤ i ∨ i < -(row.length : Int))) ∧
      (0 ≤ i → i < (row.length : Int) →
        pySet row i a = some (row.set i.toNat a)) ∧
      (-(row.length : Int) ≤ i → i < 0 →
        pySet row i a = some (row.set (i + row.length).toNat a))) := by
  refine ⟨⟨?_, ?_⟩, ⟨?_, ?_⟩, fun hx0 hx1 hy0 hy1 =>
    ⟨draw_cell_wrap g hd x y c hx0 hx1 hy0 hy1,
     get_cell_wrap g hd x y hx0 hx1 hy0 hy1⟩,
    fun row a i => pySet_spec row a i⟩
  · intro hnone
    by_contra hreg
    push_neg at hreg
    rw [draw_cell_wrap g hd x y c (by omega) (by omega) (by omega)
      (by omega)] at hnone
    exact absurd hnone (by simp)
  · intro h
    rw [draw_cell_char g hd]
    by_cases hybad : (24 : Int) ≤ y ∨ y < -24
    · rw [pyIdx_none (by omega)]
      rfl
    · have hx80 : pyIdx 80 x = none := pyIdx_none (by omega)
      by_cases hy0 : 0 ≤ y
      · rw [pyIdx_pos hy0 (by omega)]
        simp only [Option.some_bind]
        rw [hx80]
        rfl
      · rw [pyIdx_neg (by omega) (by omega)]
        simp only [Option.some_bind]
        rw [hx80]
        rfl
  · intro hnone
    by_contra hreg
    push_neg at hreg
    rw [get_cell_wrap g hd x y (by omega) (by omega) (by omega)
      (by omega)] at hnone
    exact absurd hnone (by simp)
  · intro h
    unfold get_cell
    by_cases hybad : (24 : Int) ≤ y ∨ y < -24
    · have hgnone : pyGet g y = none := by
        unfold pyGet
        rw [hd.1, pyIdx_none (by omega)]
        rfl
      rw [hgnone]
      rfl
    · by_cases hy0 : 0 ≤ y
      · rw [pyGet_some g hd y y.toNat (pyIdx_pos hy0 (by omega))]
        simp only [Option.some_bind]
        unfold pyGet
        rw [dims_row g hd y.toNat (by omega), pyIdx_none (by omega)]
        rfl
      · rw [pyGet_some g hd y ((y + 24).toNat)
          (by rw [pyIdx_neg (by omega) (by omega)]; congr 1)]
        simp only [Option.some_bind]
        unfold pyGet
        rw [dims_row g hd ((y + 24).toNat) (by omega),
          pyIdx_none (by omega)]
        rfl

/-- Witness for the amended C3: far-out-of-range coordinates make both
the cell write and the cell read fail; in-range ones address the stated
cell; the both-negative coordinate `(-1, -1)` silently writes/reads cell
`(79, 23)`; and the row-level subscript `row[-1] = c` wraps to offset
`79` on an 80-cell row. -/
theorem draw_cell_out_of_bounds_witness :
    dims initGrid ∧
    draw_cell initGrid 100 0 'a' = none ∧
    get_cell initGrid 0 (-100) = none ∧
    draw_cell initGrid 3 2 'a' = some (setCellIB initGrid 3 2 'a') ∧
    draw_cell initGrid (-1) (-1) 'a' =
      some (setCellIB initGrid 79 23 'a') ∧
    get_cell initGrid (-1) (-1) = some (cellAt initGrid 79 23) ∧
    pySet (List.replicate 80 ' ') (-1) 'a' =
      some ((List.replicate 80 ' ').set 79 'a') := by
  have h1 := (draw_cell_out_of_bounds_behavior initGrid (by decide)
    100 0 'a').1.mpr (by decide)
  have h2 := (draw_cell_out_of_bounds_behavior initGrid (by decide)
    0 (-100) 'a').2.1.mpr (by decide)
  have h3 := ((draw_cell_out_of_bounds_behavior initGrid (by decide)
    3 2 'a').2.2.1 (by decide) (by decide) (by decide) (by decide)).1
  have h4 := (draw_cell_out_of_bounds_behavior initGrid (by decide)
    (-1) (-1) 'a').2.2.1 (by decide) (by decide) (by decide) (by decide)
  have h5 := ((draw_cell_out_of_bounds_behavior initGrid (by decide)
    0 0 'a').2.2.2 (List.replicate 80 ' ') 'a' (-1)).2.2
    (by decide) (by decide)
  exact ⟨by decide, h1, h2, h3, h4.1, h4.2, h5⟩

end Tomodraw
